import Mathlib

/-!
Shallow embedding of the elastic pipeline scheduler implemented in
`src/pkg/engine/pipeline.go` (package `engine` of easegress/easegateway).

Conventions used throughout:
* Go `uint32` values are modelled as `Nat` with explicit reduction modulo
  `2^32` at the places where the Go code can overflow or wrap.
* `time.Time` values are modelled as `Nat` timestamps in milliseconds;
  `now.Sub(t).Seconds()*1000 < C` becomes `now - t < C` with truncated `Nat`
  subtraction, which agrees with the Go comparison (a negative duration is
  `< C` in Go and truncates to `0 < C` here).
* Fallible calls (`pipeline.GetInstance`) are modelled by the number of
  consecutive successful constructions available to a spawning loop.
* Each concurrent control loop is embedded as the pure function computing the
  effect of one of its iterations on the scheduler state, and lifecycle /
  signal interleavings as explicit step relations.
-/

namespace Engine

/-- `2^32`, the modulus of Go `uint32` arithmetic. -/
def U32MOD : Nat := 4294967296

/-- `^uint32(0)` = 4294967295, the largest `uint32` (used by `startPipeline`
as an absolute cap check). -/
def UINT32_MAX : Nat := 4294967295

/-- `SCHEDULER_DYNAMIC_SPAWN_MIN_INTERVAL_MS` (pipeline.go line 175). -/
def SCHEDULER_DYNAMIC_SPAWN_MIN_INTERVAL_MS : Nat := 500

/-- `SCHEDULER_DYNAMIC_SPAWN_MAX_IN_EACH` (pipeline.go line 176). -/
def SCHEDULER_DYNAMIC_SPAWN_MAX_IN_EACH : Nat := 500

/-- `SCHEDULER_DYNAMIC_FAST_SCALE_INTERVAL_MS` (pipeline.go line 177). -/
def SCHEDULER_DYNAMIC_FAST_SCALE_INTERVAL_MS : Nat := 1000

/-- `SCHEDULER_DYNAMIC_FAST_SCALE_MIN_COUNT` (pipeline.go line 179). -/
def SCHEDULER_DYNAMIC_FAST_SCALE_MIN_COUNT : Nat := 5

/-- `SCHEDULER_DYNAMIC_SHRINK_MIN_DELAY_MS` (pipeline.go line 180). -/
def SCHEDULER_DYNAMIC_SHRINK_MIN_DELAY_MS : Nat := 500

/-! ## commonPipelineScheduler.startPipeline -/

/-- The part of a `commonPipelineScheduler`'s state that `startPipeline`
reads and writes: the length of the `instances` slice and the atomic
`stopped` flag. -/
structure PoolState where
  len : Nat
  stopped : Bool
deriving Repr, DecidableEq

/-- `commonPipelineScheduler.startPipeline` (pipeline.go lines 100-143).
`maxPar` is `option.PipelineMaxParallelism`; `okCount` is the number of
consecutive `pipeline.GetInstance` calls that succeed (the loop returns
early at the first failure, keeping the instances appended so far).
Returns `(new length of instances, number of instances added)`.
The subtraction `option.PipelineMaxParallelism - currentParallelism` is
`uint32` arithmetic, hence the explicit `% U32MOD`. -/
def startPipeline (maxPar : Nat) (s : PoolState) (parallelism : Nat) (okCount : Nat) :
    Nat × Nat :=
  let parallelism := if parallelism = 0 then 1 else parallelism
  if s.stopped ∨ s.len = UINT32_MAX then
    (s.len, 0)
  else
    let left := (maxPar + U32MOD - s.len) % U32MOD
    let parallelism := if parallelism > left then left else parallelism
    let added := min parallelism okCount
    (s.len + added, added)

/-- The events that can change the worker set of a scheduler: a
`startPipeline` call (with a requested count and the number of available
successful `GetInstance` constructions), the tail pop of one shrink tick,
the truncation done by `StopPipeline`, and the `stopped := 1` store. -/
inductive PoolEvent
| start : Nat → Nat → PoolEvent
| pop : PoolEvent
| clear : PoolEvent
| setStopped : PoolEvent
deriving Repr, DecidableEq

/-- Effect of one `PoolEvent` on the pool state. -/
def applyPoolEvent (maxPar : Nat) (s : PoolState) : PoolEvent → PoolState
| .start req ok => { s with len := (startPipeline maxPar s req ok).1 }
| .pop => { s with len := s.len - 1 }
| .clear => { s with len := 0 }
| .setStopped => { s with stopped := true }

/-- The freshly constructed scheduler: empty worker set, not stopped. -/
def initPool : PoolState := { len := 0, stopped := false }

/-- The pool state after a sequence of events starting from a fresh
scheduler. -/
def runPool (maxPar : Nat) (events : List PoolEvent) : PoolState :=
  events.foldl (applyPoolEvent maxPar) initPool

/-! ## The overflow-guarded probe sum of spawn() and shrink() -/

/-- One iteration of the probe-summing loop shared by `spawn()` (pipeline.go
lines 354-360) and `shrink()` (lines 398-404):
`l := getter(); if l+queueLength > queueLength { queueLength = l + queueLength }`,
in `uint32` arithmetic. -/
def probeSumStep (queueLength l : Nat) : Nat :=
  if (l + queueLength) % U32MOD > queueLength then (l + queueLength) % U32MOD
  else queueLength

/-- The whole loop `for _, getter := range scheduler.getters { ... }` over the
list of values returned by the getters (Go map iteration order is
unspecified, so the list order is arbitrary), starting from
`var queueLength uint32` = 0. -/
def probeSum (ls : List Nat) : Nat := ls.foldl probeSumStep 0

/-! ## Events, maps and the launch() loop -/

/-- `inputEvent` (pipeline.go lines 183-187). The getter function is modelled
as an opaque identifier; a `nil` getter is `none`. -/
structure InputEvent where
  getterName : String
  getter : Option Nat
  queueLength : Nat
deriving Repr, DecidableEq

/-- A Go map from source names to millisecond timestamps
(`sourceLastScheduleTimes`), as an association list of its entries. -/
abbrev TimesMap := List (String × Nat)

/-- Go map read `scheduler.sourceLastScheduleTimes[name]`: the entry if
present, else the zero `time.Time` (timestamp 0). -/
def lookupTime (m : TimesMap) (name : String) : Nat :=
  match m.find? (fun p => p.1 == name) with
  | some p => p.2
  | none => 0

/-- Go map write `m[name] = t`: overwrite the entry if present, else append
a fresh one. -/
def setTime (m : TimesMap) (name : String) (t : Nat) : TimesMap :=
  if m.any (fun p => p.1 == name) then
    m.map (fun p => if p.1 == name then (p.1, t) else p)
  else m ++ [(name, t)]

/-- Go map write `scheduler.getters[name] = getter` on the getter registry
(getter functions as opaque identifiers). -/
def setGetter (m : List (String × Nat)) (name : String) (g : Nat) :
    List (String × Nat) :=
  if m.any (fun p => p.1 == name) then
    m.map (fun p => if p.1 == name then (p.1, g) else p)
  else m ++ [(name, g)]

/-- The part of a `dynamicPipelineScheduler`'s state read and written by one
iteration of its `launch()` loop. -/
structure LaunchState where
  sourceLastScheduleTimes : TimesMap
  getters : List (String × Nat)
  shrinkTime : Nat
  launchTime : Nat
deriving Repr, DecidableEq

/-- `uint32(math.Ceil(float64(queueLength) * SCHEDULER_DYNAMIC_FAST_SCALE_RATIO))`
(pipeline.go line 302), with `SCHEDULER_DYNAMIC_FAST_SCALE_RATIO = 1.2`,
modelled by the exact rational ceiling `⌈6q/5⌉ = (6q+4)/5`. For every
`uint32` queue length whose boosted value is representable the `float64`
computation yields exactly this ceiling (the product of a `uint32` and the
double nearest 1.2 stays within half an ulp of the exact value, which is
never that close to crossing an integer from the relevant side); the final
`uint32` conversion of an out-of-range result is implementation-defined in
Go and is modelled as reduction modulo `2^32`. -/
def fastScaleCeil (queueLength : Nat) : Nat :=
  ((6 * queueLength + 4) / 5) % U32MOD

/-- The fast-scale boost and per-cycle cap at the bottom of the `launch()`
loop body (pipeline.go lines 298-316), computing the parallelism request
passed on to `startPipeline`. The state is returned unchanged: this part of
the loop body only reads `shrinkTime`. -/
def launchScale (s : LaunchState) (queueLength : Nat) (now : Nat) :
    LaunchState × Option Nat :=
  let q :=
    if now - s.shrinkTime < SCHEDULER_DYNAMIC_FAST_SCALE_INTERVAL_MS then
      let l := fastScaleCeil queueLength
      let l := if l < SCHEDULER_DYNAMIC_FAST_SCALE_MIN_COUNT then
                 SCHEDULER_DYNAMIC_FAST_SCALE_MIN_COUNT
               else l
      if l > queueLength then l else queueLength
    else queueLength
  let q := if q > SCHEDULER_DYNAMIC_SPAWN_MAX_IN_EACH then
             SCHEDULER_DYNAMIC_SPAWN_MAX_IN_EACH
           else q
  (s, some q)

/-- One iteration of `dynamicPipelineScheduler.launch()` on event `info` at
time `now` (pipeline.go lines 268-331). Returns the updated scheduler state
together with `some r` when the iteration goes on to call
`startPipeline(r, ...)`, and `none` when the event is debounced
(`continue` at line 283). The `startPipeline` call itself and the
subsequent `launchTime` update are modelled by `startPipeline` /
`PoolEvent.start` above. -/
def launchProcess (s : LaunchState) (info : InputEvent) (now : Nat) :
    LaunchState × Option Nat :=
  if info.getterName ≠ "" ∧ info.getter ≠ none then
    -- calls from trigger()
    let lastScheduleAt := lookupTime s.sourceLastScheduleTimes info.getterName
    if now - lastScheduleAt < SCHEDULER_DYNAMIC_SPAWN_MIN_INTERVAL_MS then
      (s, none) -- pipeline instance schedule needs time
    else
      let s1 : LaunchState := { s with
        sourceLastScheduleTimes := setTime s.sourceLastScheduleTimes info.getterName now,
        getters := setGetter s.getters info.getterName (info.getter.getD 0) }
      launchScale s1 info.queueLength now
  else
    -- calls from spawn(): refresh every recorded schedule time to now
    let s1 : LaunchState := { s with
      sourceLastScheduleTimes := s.sourceLastScheduleTimes.map (fun p => (p.1, now)) }
    launchScale s1 info.queueLength now

/-! ## trigger() -/

/-- The observable actions performed by one call of
`dynamicPipelineScheduler.trigger` (pipeline.go lines 244-266): evaluating
the probe, loading the `stopped` flag, posting an event to `launchChan`. -/
inductive TriggerAct
| probeCall
| stoppedCheck
| post (e : InputEvent)
deriving Repr, DecidableEq, BEq

/-- `dynamicPipelineScheduler.trigger(getterName, getter)` as the sequence
of observable actions it performs, in program order. `g` identifies the
getter, `queueLength` is the value `getter()` returns, `stopped` is the
scheduler's atomic flag, `chanFree` says whether the non-blocking send on
`launchChan` finds buffer space (otherwise the `default` case drops the
event). -/
def trigger (getterName : String) (g : Nat) (queueLength : Nat)
    (stopped : Bool) (chanFree : Bool) : List TriggerAct :=
  [TriggerAct.probeCall] ++
    (if queueLength = 0 then []
     else
       [TriggerAct.stoppedCheck] ++
         (if stopped then []
          else if chanFree then
            [TriggerAct.post ⟨getterName, some g, queueLength⟩]
          else []))

/-! ## shrink() -/

/-- The part of a `dynamicPipelineScheduler`'s state read and written by one
tick of its `shrink()` loop: the `instances` slice (handles as opaque
identifiers, tail = most recently appended) and the two time ledgers. -/
structure ShrinkState where
  instances : List Nat
  launchTime : Nat
  shrinkTime : Nat
deriving Repr, DecidableEq

/-- One tick of `dynamicPipelineScheduler.shrink()` (pipeline.go lines
384-454). `probes` are the values returned by the registered getters on
this tick, summed with the same overflow-guarded loop as `spawn()`.
Returns the new state together with whether a worker was popped (the
subsequent `stopPipelineInstance` call on the popped handle is modelled by
the `HandleStep` relation below). The duplicated length check is the
double-checked re-read under the write lock (DCL, line 419). -/
def shrinkTick (minPar : Nat) (s : ShrinkState) (probes : List Nat) (now : Nat) :
    ShrinkState × Bool :=
  if s.instances.length ≤ minPar then (s, false)
  else if probeSum probes ≠ 0 then (s, false)
  else if s.instances.length ≤ minPar then (s, false) -- DCL
  else if now - s.launchTime < SCHEDULER_DYNAMIC_SHRINK_MIN_DELAY_MS then
    (s, false) -- just launched instance, need to wait it runs
  else
    ({ s with instances := s.instances.dropLast, shrinkTime := now }, true)

/-- A sequence of shrink ticks, each with its probe values and timestamp. -/
def runShrink (minPar : Nat) (s : ShrinkState) (ticks : List (List Nat × Nat)) :
    ShrinkState :=
  ticks.foldl (fun st t => (shrinkTick minPar st t.1 t.2).1) s

/-! ## Dynamic scheduler lifecycle: Start and Stop -/

/-- The lifecycle-relevant state of a `dynamicPipelineScheduler`: the two
atomic flags, the worker count, whether `ctx`/`statistics`/`mod` have been
booked, the four channels' closed status, how many times the three control
loops were launched, and whether some `close()` ever hit an already-closed
channel (which panics the Go runtime). -/
structure DynState where
  started : Bool
  stopped : Bool
  len : Nat
  ctxBooked : Bool
  spawnStopClosed : Bool
  shrinkStopClosed : Bool
  spawnDoneClosed : Bool
  launchChanClosed : Bool
  loopSpawns : Nat
  doubleClose : Bool
deriving Repr, DecidableEq

/-- A freshly constructed `dynamicPipelineScheduler`
(`newDynamicPipelineScheduler`, pipeline.go lines 206-216). -/
def initDyn : DynState :=
  { started := false, stopped := false, len := 0, ctxBooked := false,
    spawnStopClosed := false, shrinkStopClosed := false,
    spawnDoneClosed := false, launchChanClosed := false,
    loopSpawns := 0, doubleClose := false }

/-- `dynamicPipelineScheduler.Start` (pipeline.go lines 222-242): CAS
`started 0→1`, book the context, call
`startPipeline(option.PipelineInitParallelism, ...)` (here with every
`GetInstance` succeeding), then launch the `launch()`/`spawn()`/`shrink()`
goroutines. When `spawnStop` is already closed at that moment, the fresh
`spawn()` goroutine promptly takes its `<-scheduler.spawnStop` case and
returns, running its deferred `close(scheduler.spawnDone)`; closing an
already-closed channel is a Go runtime panic, recorded in `doubleClose`. -/
def dynStart (maxPar initPar : Nat) (s : DynState) : DynState :=
  if s.started then s
  else
    let s := { s with started := true, ctxBooked := true }
    let s := { s with
      len := (startPipeline maxPar { len := s.len, stopped := s.stopped } initPar initPar).1 }
    let s := { s with loopSpawns := s.loopSpawns + 1 }
    if s.spawnStopClosed then
      if s.spawnDoneClosed then { s with doubleClose := true }
      else { s with spawnDoneClosed := true }
    else s

/-- `dynamicPipelineScheduler.Stop` (pipeline.go lines 461-474): CAS
`stopped 0→1`, close `spawnStop` and `shrinkStop`, wait on `spawnDone`
(the running `spawn()` goroutine returns and its deferred close fires),
close `launchChan`, and store `started := 0`. -/
def dynStop (s : DynState) : DynState :=
  if s.stopped then s
  else
    let s := { s with stopped := true }
    let s := { s with spawnStopClosed := true, shrinkStopClosed := true }
    let s := { s with spawnDoneClosed := true }
    let s := { s with launchChanClosed := true }
    { s with started := false }

/-! ## pipelineInstance: run / terminate signal discipline -/

/-- Program counter of the `pipelineInstance.run()` goroutine (pipeline.go
lines 38-58): at the `select` of the loop, waiting on `<-pi.stopped`,
about to `close(pi.done)` after `pi.instance.Close()` returned, or
finished. -/
inductive RunPC
| atSelect
| waitStopped
| closingDone
| finished
deriving Repr, DecidableEq

/-- Program counter of the terminator side (pipeline.go lines 60-67):
`terminate` not yet called, called (so `stop` is closed and the spawned
goroutine is inside `pi.instance.Stop(scheduled)`), or that goroutine has
returned from `Stop` and closed `stopped`. -/
inductive TermPC
| idle
| stopping
| stoppedDone
deriving Repr, DecidableEq

/-- Joint state of one `pipelineInstance`'s run goroutine, terminator, and
three one-shot channels. The `*Closes` fields count how many `close()`
calls were issued on each channel, and `closeCalls` counts the calls of
`pi.instance.Close()`. -/
structure HandleState where
  runPC : RunPC
  termPC : TermPC
  stopClosed : Bool
  stoppedClosed : Bool
  doneClosed : Bool
  stopCloses : Nat
  stoppedCloses : Nat
  doneCloses : Nat
  closeCalls : Nat
deriving Repr, DecidableEq

/-- A freshly built `pipelineInstance` with its `run()` goroutine at the top
of the loop and `terminate` not yet called. -/
def initHandle : HandleState :=
  { runPC := .atSelect, termPC := .idle,
    stopClosed := false, stoppedClosed := false, doneClosed := false,
    stopCloses := 0, stoppedCloses := 0, doneCloses := 0, closeCalls := 0 }

/-- Interleaved small steps of the `run()` goroutine and of `terminate` with
its spawned goroutine, for a single-use handle (`terminate` is called at
most once, as both its callers — `shrink()` after popping the handle and
`StopPipeline` — guarantee).
* `runExitStop`: the `select` sees `stop` closed and breaks the loop.
* `runIterOk`: `stop` not closed, `pi.instance.Run()` is called and
  returns `nil`; the loop continues.
* `runIterErr`: `stop` not closed, `Run()` returns an error; the loop
  breaks.
* `runClose`: `<-pi.stopped` completes (requires `stopped` closed) and
  `pi.instance.Close()` is called.
* `runDone`: `close(pi.done)`.
* `termCall`: `terminate(scheduled)` runs `close(pi.stop)` and spawns the
  goroutine that calls `pi.instance.Stop(scheduled)`.
* `termStopped`: `pi.instance.Stop(scheduled)` returns and the goroutine
  runs `close(pi.stopped)`. -/
inductive HandleStep : HandleState → HandleState → Prop
| runExitStop (s : HandleState) :
    s.runPC = .atSelect → s.stopClosed = true →
    HandleStep s { s with runPC := .waitStopped }
| runIterOk (s : HandleState) :
    s.runPC = .atSelect → s.stopClosed = false →
    HandleStep s s
| runIterErr (s : HandleState) :
    s.runPC = .atSelect → s.stopClosed = false →
    HandleStep s { s with runPC := .waitStopped }
| runClose (s : HandleState) :
    s.runPC = .waitStopped → s.stoppedClosed = true →
    HandleStep s { s with runPC := .closingDone, closeCalls := s.closeCalls + 1 }
| runDone (s : HandleState) :
    s.runPC = .closingDone →
    HandleStep s { s with runPC := .finished, doneClosed := true,
                          doneCloses := s.doneCloses + 1 }
| termCall (s : HandleState) :
    s.termPC = .idle →
    HandleStep s { s with termPC := .stopping, stopClosed := true,
                          stopCloses := s.stopCloses + 1 }
| termStopped (s : HandleState) :
    s.termPC = .stopping →
    HandleStep s { s with termPC := .stoppedDone, stoppedClosed := true,
                          stoppedCloses := s.stoppedCloses + 1 }

/-- States reachable from a freshly built handle. -/
inductive HandleReach : HandleState → Prop
| init : HandleReach initHandle
| step {s t : HandleState} : HandleReach s → HandleStep s t → HandleReach t

/-- The inductive invariant of the handle state machine. -/
def HandleInv (s : HandleState) : Prop :=
  s.stopCloses ≤ 1 ∧ s.stoppedCloses ≤ 1 ∧ s.doneCloses ≤ 1 ∧ s.closeCalls ≤ 1
  ∧ (s.stopClosed ↔ s.stopCloses = 1)
  ∧ (s.stoppedClosed ↔ s.stoppedCloses = 1)
  ∧ (s.doneClosed ↔ s.doneCloses = 1)
  ∧ (s.stopClosed ↔ s.termPC ≠ .idle)
  ∧ (s.stoppedClosed ↔ s.termPC = .stoppedDone)
  ∧ (s.closeCalls = 1 ↔ (s.runPC = .closingDone ∨ s.runPC = .finished))
  ∧ ((s.runPC = .closingDone ∨ s.runPC = .finished) → s.stoppedClosed = true)
  ∧ (s.doneClosed ↔ s.runPC = .finished)

/-! ## Theorems -/

/-- One `startPipeline` call keeps the worker count below the cap. -/
theorem startPipeline_le (maxPar : Nat) (hmax : maxPar ≤ UINT32_MAX)
    (s : PoolState) (req ok : Nat) (hlen : s.len ≤ maxPar) :
    (startPipeline maxPar s req ok).1 ≤ maxPar := by
  unfold UINT32_MAX at hmax
  simp only [startPipeline, UINT32_MAX, U32MOD]
  split_ifs with h1 h2 h3 <;> simp only <;> omega

/-- `startPipeline` returns the old length plus the number added. -/
theorem startPipeline_fst (maxPar : Nat) (s : PoolState) (req ok : Nat) :
    (startPipeline maxPar s req ok).1 = s.len + (startPipeline maxPar s req ok).2 := by
  simp only [startPipeline]
  split_ifs <;> simp

/-- Every pool event preserves the cap. -/
theorem applyPoolEvent_le (maxPar : Nat) (hmax : maxPar ≤ UINT32_MAX)
    (s : PoolState) (hlen : s.len ≤ maxPar) (e : PoolEvent) :
    (applyPoolEvent maxPar s e).len ≤ maxPar := by
  cases e with
  | start req ok => exact startPipeline_le maxPar hmax s req ok hlen
  | pop => simp only [applyPoolEvent]; omega
  | clear => simp [applyPoolEvent]
  | setStopped => simpa [applyPoolEvent] using hlen

/-- The cap holds after any event sequence from any capped state. -/
theorem foldPool_le (maxPar : Nat) (hmax : maxPar ≤ UINT32_MAX) :
    ∀ (events : List PoolEvent) (s : PoolState), s.len ≤ maxPar →
      (events.foldl (applyPoolEvent maxPar) s).len ≤ maxPar := by
  intro events
  induction events with
  | nil => intro s h; exact h
  | cons e t ih =>
    intro s h
    simp only [List.foldl_cons]
    exact ih _ (applyPoolEvent_le maxPar hmax s h e)

/-- C1: for every sequence of `startPipeline` calls (and pops, truncations
and stops), the worker set never exceeds `option.PipelineMaxParallelism`:
after any event sequence the count is at most the cap, and during any
further `startPipeline` call every intermediate moment (after appending
`i ≤ added` of the new instances) is still at most the cap, because
`startPipeline` clamps the requested count to `maxPar - len`. -/
theorem startPipeline_cap (maxPar : Nat) (hmax : maxPar ≤ UINT32_MAX)
    (events : List PoolEvent) :
    (runPool maxPar events).len ≤ maxPar
    ∧ ∀ req ok i, i ≤ (startPipeline maxPar (runPool maxPar events) req ok).2 →
        (runPool maxPar events).len + i ≤ maxPar := by
  constructor
  · exact foldPool_le maxPar hmax events initPool (Nat.zero_le maxPar)
  · intro req ok i hi
    have hfin : (startPipeline maxPar (runPool maxPar events) req ok).1 ≤ maxPar :=
      startPipeline_le maxPar hmax _ req ok
        (foldPool_le maxPar hmax events initPool (Nat.zero_le maxPar))
    have := startPipeline_fst maxPar (runPool maxPar events) req ok
    omega

/-- C1 witness: a concrete oversized request on a cap of 10 stays at 10. -/
theorem startPipeline_cap_witness :
    (runPool 10 [PoolEvent.start 7 7, PoolEvent.start 99 99]).len ≤ 10 :=
  (startPipeline_cap 10 (by decide) [PoolEvent.start 7 7, PoolEvent.start 99 99]).1

/-- C2 counterexample: with probe values `[1, UINT32_MAX]` (a possible Go
map iteration order) the summing loop of `spawn()`/`shrink()` returns `1`,
not the saturated value `min UINT32_MAX (1 + UINT32_MAX) = UINT32_MAX`:
the addition that would wrap is dropped, the accumulator is not saturated
to `UINT32_MAX`. -/
theorem probeSum_not_min_saturation :
    probeSum [1, UINT32_MAX] ≠ min UINT32_MAX (List.sum [1, UINT32_MAX]) := by
  decide

/-- The guarded fold stays below `2^32` from any in-range accumulator. -/
theorem probeSum_foldl_lt (ls : List Nat) :
    ∀ acc : Nat, acc < U32MOD → ls.foldl probeSumStep acc < U32MOD := by
  induction ls with
  | nil => intro acc h; simpa using h
  | cons l t ih =>
    intro acc h
    simp only [List.foldl_cons]
    refine ih _ ?_
    unfold probeSumStep
    split
    · exact Nat.mod_lt _ (by decide)
    · exact h

/-- The guarded fold never exceeds the mathematical sum. -/
theorem probeSum_foldl_le (ls : List Nat) :
    ∀ acc : Nat, ls.foldl probeSumStep acc ≤ acc + ls.sum := by
  induction ls with
  | nil => intro acc; simp
  | cons l t ih =>
    intro acc
    simp only [List.foldl_cons, List.sum_cons]
    have hstep : probeSumStep acc l ≤ acc + l := by
      unfold probeSumStep
      split
      · have := Nat.mod_le (l + acc) U32MOD
        omega
      · omega
    have := ih (probeSumStep acc l)
    omega

/-- When nothing overflows the guarded fold is the exact sum. -/
theorem probeSum_foldl_exact (ls : List Nat) :
    ∀ acc : Nat, acc + ls.sum < U32MOD → ls.foldl probeSumStep acc = acc + ls.sum := by
  induction ls with
  | nil => intro acc h; simp
  | cons l t ih =>
    intro acc h
    simp only [List.sum_cons] at h
    simp only [List.foldl_cons, List.sum_cons]
    have hlt : l + acc < U32MOD := by omega
    have hstep : probeSumStep acc l = acc + l := by
      unfold probeSumStep
      rw [Nat.mod_eq_of_lt hlt]
      split <;> omega
    rw [hstep, ih (acc + l) (by omega)]
    omega

/-- C2 amended: the probe-summing loop of `spawn()` and `shrink()` drops
every addition that would wrap modulo `2^32`; its result is always below
`2^32`, never exceeds the mathematical sum, and equals the mathematical
sum whenever that sum fits in a `uint32` — but on overflow it does not
saturate at `UINT32_MAX` (see the counterexample), it merely skips the
wrapping additions, and the result depends on iteration order. -/
theorem probeSum_overflow_guard (ls : List Nat) :
    probeSum ls < U32MOD ∧ probeSum ls ≤ ls.sum
    ∧ (ls.sum < U32MOD → probeSum ls = ls.sum) := by
  refine ⟨probeSum_foldl_lt ls 0 (by decide), ?_, ?_⟩
  · simpa [probeSum] using probeSum_foldl_le ls 0
  · intro h
    simpa [probeSum] using probeSum_foldl_exact ls 0 (by simpa using h)

/-- C2 witness: on `[2, 3]` the loop computes the exact sum `5`. -/
theorem probeSum_overflow_guard_witness : probeSum [2, 3] = List.sum [2, 3] :=
  (probeSum_overflow_guard [2, 3]).2.2 (by decide)

/-- C3: lifecycle evaluated on the call sequence `Start(); Stop(); Start()`
(with `maxPar = 5120`, `initPar = 1`, every `GetInstance` succeeding).
Double `Start` and double `Stop` are indeed no-ops, but `Start` after
`Stop` is not: because `Stop` stores `started := 0`, the second `Start`'s
CAS succeeds, so it flips `started` back to `1`, launches the three control
loops a second time, and the fresh `spawn()` goroutine — finding
`spawnStop` already closed — re-runs `close(spawnDone)` on the already
closed channel, a Go runtime panic (`doubleClose = true`). Only the worker
count is unaffected (`startPipeline` refuses because `stopped = 1`). -/
theorem start_after_stop_effects :
    dynStart 5120 1 (dynStart 5120 1 initDyn) = dynStart 5120 1 initDyn
    ∧ dynStop (dynStop (dynStart 5120 1 initDyn)) = dynStop (dynStart 5120 1 initDyn)
    ∧ (dynStop (dynStart 5120 1 initDyn)).started = false
    ∧ (dynStart 5120 1 (dynStop (dynStart 5120 1 initDyn))).started = true
    ∧ (dynStart 5120 1 (dynStop (dynStart 5120 1 initDyn))).loopSpawns = 2
    ∧ (dynStart 5120 1 (dynStop (dynStart 5120 1 initDyn))).doubleClose = true
    ∧ (dynStart 5120 1 (dynStop (dynStart 5120 1 initDyn))).len
        = (dynStop (dynStart 5120 1 initDyn)).len := by
  decide

/-- The invariant holds in the initial handle state. -/
theorem handleInv_init : HandleInv initHandle := by
  unfold HandleInv initHandle
  simp

/-- Every interleaved step of the run goroutine and the terminator
preserves the handle invariant. -/
theorem handleInv_step {s t : HandleState} (hs : HandleInv s) (h : HandleStep s t) :
    HandleInv t := by
  unfold HandleInv at hs ⊢
  obtain ⟨h1, h2, h3, h4, h5, h6, h7, h8, h9, h10, h11, h12⟩ := hs
  cases h with
  | runExitStop hpc hstop =>
    simp_all
  | runIterOk hpc hstop =>
    exact ⟨h1, h2, h3, h4, h5, h6, h7, h8, h9, h10, h11, h12⟩
  | runIterErr hpc hstop =>
    simp_all
  | runClose hpc hstopped =>
    simp_all
    omega
  | runDone hpc =>
    simp_all
    omega
  | termCall hpc =>
    simp_all
    omega
  | termStopped hpc =>
    simp_all
    omega

/-- Every reachable handle state satisfies the invariant. -/
theorem handleReach_inv {s : HandleState} (h : HandleReach s) : HandleInv s := by
  induction h with
  | init => exact handleInv_init
  | step hr hstep ih => exact handleInv_step ih hstep

/-- C4: in every reachable state of a `pipelineInstance`, each of the three
signals `stop`, `stopped`, `done` has been closed at most once,
`Worker.Close` has been called at most once and only after
`Worker.Stop(scheduled)` returned (the `stopped` close), `done` is closed
only strictly after both `stop` and `stopped` and after the `Close` call,
and a finished run goroutine has called `Close` exactly once. -/
theorem pipelineInstance_signal_discipline {s : HandleState} (h : HandleReach s) :
    s.stopCloses ≤ 1 ∧ s.stoppedCloses ≤ 1 ∧ s.doneCloses ≤ 1 ∧ s.closeCalls ≤ 1
    ∧ (s.closeCalls = 1 → s.stoppedClosed = true ∧ s.stopClosed = true)
    ∧ (s.doneClosed = true →
        s.closeCalls = 1 ∧ s.stoppedClosed = true ∧ s.stopClosed = true)
    ∧ (s.runPC = RunPC.finished → s.closeCalls = 1) := by
  have hi := handleReach_inv h
  unfold HandleInv at hi
  obtain ⟨h1, h2, h3, h4, h5, h6, h7, h8, h9, h10, h11, h12⟩ := hi
  have hclose : s.closeCalls = 1 → s.stoppedClosed = true ∧ s.stopClosed = true := by
    intro hc
    have hpc := h10.mp hc
    have hstopped := h11 hpc
    have hterm : s.termPC = TermPC.stoppedDone := h9.mp hstopped
    have hstop : s.stopClosed = true := by
      have : s.termPC ≠ TermPC.idle := by simp [hterm]
      simpa using h8.mpr this
    exact ⟨hstopped, hstop⟩
  refine ⟨h1, h2, h3, h4, hclose, ?_, ?_⟩
  · intro hdone
    have hfin : s.runPC = RunPC.finished := h12.mp hdone
    have hc : s.closeCalls = 1 := h10.mpr (Or.inr hfin)
    exact ⟨hc, hclose hc⟩
  · intro hfin
    exact h10.mpr (Or.inr hfin)

/-- The state of a handle after a complete teardown:
`terminate` called, run loop exited, `Stop` returned, `Close` called,
`done` closed. -/
def handleFinal : HandleState :=
  { runPC := .finished, termPC := .stoppedDone,
    stopClosed := true, stoppedClosed := true, doneClosed := true,
    stopCloses := 1, stoppedCloses := 1, doneCloses := 1, closeCalls := 1 }

/-- The complete teardown state is reachable: terminate, loop exit on the
closed `stop`, `Stop` returns and closes `stopped`, `Close`, close `done`. -/
theorem handleFinal_reach : HandleReach handleFinal := by
  have h1 := HandleReach.step HandleReach.init (HandleStep.termCall initHandle rfl)
  have h2 := HandleReach.step h1 (HandleStep.runExitStop _ rfl rfl)
  have h3 := HandleReach.step h2 (HandleStep.termStopped _ rfl)
  have h4 := HandleReach.step h3 (HandleStep.runClose _ rfl rfl)
  have h5 := HandleReach.step h4 (HandleStep.runDone _ rfl)
  exact h5

/-- C4 witness: the signal discipline evaluated at the completed-teardown
state. -/
theorem pipelineInstance_signal_discipline_witness :
    handleFinal.stopCloses ≤ 1 ∧ handleFinal.stoppedCloses ≤ 1
    ∧ handleFinal.doneCloses ≤ 1 ∧ handleFinal.closeCalls ≤ 1
    ∧ (handleFinal.closeCalls = 1 →
        handleFinal.stoppedClosed = true ∧ handleFinal.stopClosed = true)
    ∧ (handleFinal.doneClosed = true →
        handleFinal.closeCalls = 1 ∧ handleFinal.stoppedClosed = true
        ∧ handleFinal.stopClosed = true)
    ∧ (handleFinal.runPC = RunPC.finished → handleFinal.closeCalls = 1) :=
  pipelineInstance_signal_discipline handleFinal_reach

/-- Within the fast-scale window the request computed by the bottom of the
`launch()` loop body is exactly
`min SPAWN_MAX_IN_EACH (max FAST_SCALE_MIN_COUNT (max ⌈6q/5⌉ q))`. -/
theorem launchScale_fast (s : LaunchState) (q now : Nat)
    (hfast : now - s.shrinkTime < SCHEDULER_DYNAMIC_FAST_SCALE_INTERVAL_MS) :
    (launchScale s q now).2
      = some (min SCHEDULER_DYNAMIC_SPAWN_MAX_IN_EACH
          (max SCHEDULER_DYNAMIC_FAST_SCALE_MIN_COUNT (max ((6 * q + 4) / 5) q))) := by
  simp only [launchScale, fastScaleCeil, SCHEDULER_DYNAMIC_FAST_SCALE_INTERVAL_MS,
    SCHEDULER_DYNAMIC_FAST_SCALE_MIN_COUNT, SCHEDULER_DYNAMIC_SPAWN_MAX_IN_EACH,
    U32MOD] at hfast ⊢
  rw [if_pos hfast]
  rcases Nat.lt_or_ge ((6 * q + 4) / 5) 4294967296 with hsmall | hbig
  · rw [Nat.mod_eq_of_lt hsmall]
    simp only [Option.some.injEq]
    split_ifs <;> omega
  · have hq : 500 < q := by omega
    have humod : (6 * q + 4) / 5 % 4294967296 < 4294967296 := Nat.mod_lt _ (by norm_num)
    simp only [Option.some.injEq]
    split_ifs <;> omega

/-- `launchScale` computes the request from `shrinkTime` alone, so states
agreeing on `shrinkTime` yield the same request. -/
theorem launchScale_snd_congr (s1 s2 : LaunchState) (q now : Nat)
    (h : s1.shrinkTime = s2.shrinkTime) :
    (launchScale s1 q now).2 = (launchScale s2 q now).2 := by
  unfold launchScale
  rw [h]

/-- A launcher iteration either skips (debounce) or requests exactly what
`launchScale` computes on the incoming queue length. -/
theorem launchProcess_snd (s : LaunchState) (info : InputEvent) (now : Nat) :
    (launchProcess s info now).2 = none
    ∨ (launchProcess s info now).2 = (launchScale s info.queueLength now).2 := by
  simp only [launchProcess]
  split
  · split
    · exact Or.inl rfl
    · exact Or.inr (launchScale_snd_congr _ _ _ _ rfl)
  · exact Or.inr (launchScale_snd_congr _ _ _ _ rfl)

/-- C5: every launcher event that is processed within
`SCHEDULER_DYNAMIC_FAST_SCALE_INTERVAL_MS` of `shrinkTime` and reaches the
`startPipeline` call requests exactly
`min SPAWN_MAX_IN_EACH (max FAST_SCALE_MIN_COUNT (max ⌈1.2·q⌉ q))` workers
(with `⌈1.2·q⌉ = (6q+4)/5`), which is in particular at least
`max FAST_SCALE_MIN_COUNT q` clamped by `SPAWN_MAX_IN_EACH`. -/
theorem launch_fast_scale_floor (s : LaunchState) (info : InputEvent) (now r : Nat)
    (hfast : now - s.shrinkTime < SCHEDULER_DYNAMIC_FAST_SCALE_INTERVAL_MS)
    (hr : (launchProcess s info now).2 = some r) :
    r = min SCHEDULER_DYNAMIC_SPAWN_MAX_IN_EACH
          (max SCHEDULER_DYNAMIC_FAST_SCALE_MIN_COUNT
            (max ((6 * info.queueLength + 4) / 5) info.queueLength))
    ∧ min SCHEDULER_DYNAMIC_SPAWN_MAX_IN_EACH
        (max SCHEDULER_DYNAMIC_FAST_SCALE_MIN_COUNT info.queueLength) ≤ r := by
  have her : r = min SCHEDULER_DYNAMIC_SPAWN_MAX_IN_EACH
      (max SCHEDULER_DYNAMIC_FAST_SCALE_MIN_COUNT
        (max ((6 * info.queueLength + 4) / 5) info.queueLength)) := by
    rcases launchProcess_snd s info now with hn | he
    · rw [hn] at hr
      exact absurd hr (by simp)
    · rw [he, launchScale_fast s info.queueLength now hfast] at hr
      exact (Option.some.inj hr).symm
  constructor
  · exact her
  · simp only [SCHEDULER_DYNAMIC_SPAWN_MAX_IN_EACH,
      SCHEDULER_DYNAMIC_FAST_SCALE_MIN_COUNT] at her ⊢
    omega

/-- C5 witness: a sweep event with queue length 3 right after a shrink is
boosted to `max 5 ⌈3.6⌉ = 5` workers. -/
theorem launch_fast_scale_floor_witness :
    5 = min SCHEDULER_DYNAMIC_SPAWN_MAX_IN_EACH
          (max SCHEDULER_DYNAMIC_FAST_SCALE_MIN_COUNT (max ((6 * 3 + 4) / 5) 3))
    ∧ min SCHEDULER_DYNAMIC_SPAWN_MAX_IN_EACH
        (max SCHEDULER_DYNAMIC_FAST_SCALE_MIN_COUNT 3) ≤ 5 :=
  launch_fast_scale_floor ⟨[], [], 0, 0⟩ ⟨"", none, 3⟩ 100 5 (by decide) (by decide)

/-- C6: a trigger-origin event (non-empty source name, non-nil probe)
arriving less than `SCHEDULER_DYNAMIC_SPAWN_MIN_INTERVAL_MS` after the
recorded schedule time of its source is skipped entirely — state untouched,
no `startPipeline` request; otherwise the schedule time of the source is
set to `now`, its probe is registered in the getters map, and a
`startPipeline` request is produced. -/
theorem launch_debounce (s : LaunchState) (info : InputEvent) (now g : Nat)
    (hname : info.getterName ≠ "") (hget : info.getter = some g) :
    (now - lookupTime s.sourceLastScheduleTimes info.getterName
        < SCHEDULER_DYNAMIC_SPAWN_MIN_INTERVAL_MS →
      launchProcess s info now = (s, none))
    ∧ (SCHEDULER_DYNAMIC_SPAWN_MIN_INTERVAL_MS
        ≤ now - lookupTime s.sourceLastScheduleTimes info.getterName →
      (launchProcess s info now).1.sourceLastScheduleTimes
          = setTime s.sourceLastScheduleTimes info.getterName now
      ∧ (launchProcess s info now).1.getters = setGetter s.getters info.getterName g
      ∧ ∃ r, (launchProcess s info now).2 = some r) := by
  have htrig : info.getterName ≠ "" ∧ info.getter ≠ none := by
    refine ⟨hname, ?_⟩
    rw [hget]
    simp
  constructor
  · intro hlt
    unfold launchProcess
    rw [if_pos htrig, if_pos hlt]
  · intro hge
    unfold launchProcess
    rw [if_pos htrig, if_neg (by omega)]
    unfold launchScale
    refine ⟨rfl, ?_, ⟨_, rfl⟩⟩
    rw [hget]
    rfl

/-- C6 witness: on an unseen source (`lookupTime [] = 0`, the Go zero
time) a trigger at `now = 600` is accepted: the schedule time is recorded,
the probe registered, and a request produced. -/
theorem launch_debounce_witness :
    (600 - lookupTime ([] : TimesMap) "a" < SCHEDULER_DYNAMIC_SPAWN_MIN_INTERVAL_MS →
      launchProcess ⟨[], [], 0, 0⟩ ⟨"a", some 7, 3⟩ 600 = (⟨[], [], 0, 0⟩, none))
    ∧ (SCHEDULER_DYNAMIC_SPAWN_MIN_INTERVAL_MS ≤ 600 - lookupTime ([] : TimesMap) "a" →
      (launchProcess ⟨[], [], 0, 0⟩ ⟨"a", some 7, 3⟩ 600).1.sourceLastScheduleTimes
          = setTime ([] : TimesMap) "a" 600
      ∧ (launchProcess ⟨[], [], 0, 0⟩ ⟨"a", some 7, 3⟩ 600).1.getters
          = setGetter [] "a" 7
      ∧ ∃ r, (launchProcess ⟨[], [], 0, 0⟩ ⟨"a", some 7, 3⟩ 600).2 = some r) :=
  launch_debounce ⟨[], [], 0, 0⟩ ⟨"a", some 7, 3⟩ 600 7 (by decide) rfl

/-- C7: a shrink tick pops a worker only when at least
`SCHEDULER_DYNAMIC_SHRINK_MIN_DELAY_MS` have elapsed since `launchTime`;
inside the cooldown the tick leaves the worker set and `shrinkTime`
untouched (it returns the state unchanged). -/
theorem shrink_post_launch_quiescence (minPar : Nat) (s : ShrinkState)
    (probes : List Nat) (now : Nat) :
    ((shrinkTick minPar s probes now).2 = true →
        SCHEDULER_DYNAMIC_SHRINK_MIN_DELAY_MS ≤ now - s.launchTime)
    ∧ (now - s.launchTime < SCHEDULER_DYNAMIC_SHRINK_MIN_DELAY_MS →
        shrinkTick minPar s probes now = (s, false)) := by
  unfold shrinkTick
  split_ifs with h1 h2 h3
  · exact ⟨fun h => by simp at h, fun _ => rfl⟩
  · exact ⟨fun h => by simp at h, fun _ => rfl⟩
  · exact ⟨fun h => by simp at h, fun _ => rfl⟩
  · exact ⟨fun _ => by omega, fun hc => absurd hc (by omega)⟩

/-- C7 witness: with `launchTime = 0` a tick at `now = 600` pops (probes
all empty, two workers above a floor of one), and indeed
`500 ≤ 600 - 0`. -/
theorem shrink_post_launch_quiescence_witness :
    SCHEDULER_DYNAMIC_SHRINK_MIN_DELAY_MS ≤ 600 - 0 :=
  (shrink_post_launch_quiescence 1 ⟨[10, 11], 0, 0⟩ [] 600).1 (by decide)

/-- A single shrink tick never takes the worker count below the floor it
already satisfies. -/
theorem shrinkTick_floor (minPar : Nat) (s : ShrinkState) (probes : List Nat)
    (now : Nat) (h : minPar ≤ s.instances.length) :
    minPar ≤ (shrinkTick minPar s probes now).1.instances.length := by
  unfold shrinkTick
  split_ifs with h1 h2 h3 <;> simp [List.length_dropLast] <;> omega

/-- The floor is preserved by any sequence of shrink ticks. -/
theorem runShrink_floor (minPar : Nat) (ticks : List (List Nat × Nat)) :
    ∀ s : ShrinkState, minPar ≤ s.instances.length →
      minPar ≤ (runShrink minPar s ticks).instances.length := by
  induction ticks with
  | nil => intro s h; exact h
  | cons t ts ih =>
    intro s h
    simp only [runShrink, List.foldl_cons] at ih ⊢
    exact ih _ (shrinkTick_floor minPar s t.1 t.2 h)

/-- C8: a shrink tick pops at most one worker — the tail of the set — and
only when the count strictly exceeds `option.PipelineMinParallelism` under
the double-checked write lock; a tick that does not pop changes nothing,
so the count drops by at most one per tick, and `len ≥ MinParallelism` is
preserved by every tick and hence by every sequence of shrink ticks. -/
theorem shrink_floor_taper (minPar : Nat) (s : ShrinkState) (probes : List Nat)
    (now : Nat) (ticks : List (List Nat × Nat)) :
    ((shrinkTick minPar s probes now).2 = true →
        (shrinkTick minPar s probes now).1.instances = s.instances.dropLast
        ∧ minPar < s.instances.length)
    ∧ ((shrinkTick minPar s probes now).2 = false →
        (shrinkTick minPar s probes now).1 = s)
    ∧ s.instances.length - 1 ≤ (shrinkTick minPar s probes now).1.instances.length
    ∧ (minPar ≤ s.instances.length →
        minPar ≤ (runShrink minPar s ticks).instances.length) := by
  refine ⟨?_, ?_, ?_, runShrink_floor minPar ticks s⟩
  · unfold shrinkTick
    split_ifs with h1 h2 h3
    · exact fun h => by simp at h
    · exact fun h => by simp at h
    · exact fun h => by simp at h
    · exact fun _ => ⟨rfl, by omega⟩
  · unfold shrinkTick
    split_ifs with h1 h2 h3
    · exact fun _ => rfl
    · exact fun _ => rfl
    · exact fun _ => rfl
    · exact fun h => by simp at h
  · unfold shrinkTick
    split_ifs with h1 h2 h3 <;> simp [List.length_dropLast]

/-- C8 witness: from two workers above a floor of one, one shrink tick on
empty probes leaves one worker, still at the floor. -/
theorem shrink_floor_taper_witness :
    1 ≤ (runShrink 1 ⟨[10, 11], 0, 0⟩ [([], 600)]).instances.length :=
  (shrink_floor_taper 1 ⟨[10, 11], 0, 0⟩ [] 600 [([], 600)]).2.2.2 (by decide)

/-- C9: any event that fails the trigger-origin test (empty `getterName` —
as produced by calling the `trigger` hook with an empty source name — or a
nil getter) is handled as a sweep event: it registers nothing in the
getters map, resets every existing `sourceLastScheduleTimes` entry to
`now`, and bypasses the per-source debounce, always producing a
`startPipeline` request. -/
theorem launch_sweep_classification (s : LaunchState) (info : InputEvent) (now : Nat)
    (hsweep : info.getterName = "" ∨ info.getter = none) :
    (launchProcess s info now).1.getters = s.getters
    ∧ (launchProcess s info now).1.sourceLastScheduleTimes
        = s.sourceLastScheduleTimes.map (fun p => (p.1, now))
    ∧ ∃ r, (launchProcess s info now).2 = some r := by
  have hnot : ¬(info.getterName ≠ "" ∧ info.getter ≠ none) := by
    rcases hsweep with h | h <;> simp [h]
  unfold launchProcess
  rw [if_neg hnot]
  unfold launchScale
  exact ⟨rfl, rfl, _, rfl⟩

/-- C9 witness: an event posted by `trigger` with an empty source name but
a live probe is swept: the getter map is unchanged and the recorded
schedule time of source `a` is refreshed to `now = 700`. -/
theorem launch_sweep_classification_witness :
    (launchProcess ⟨[("a", 50)], [("a", 1)], 0, 0⟩ ⟨"", some 9, 2⟩ 700).1.getters
        = [("a", 1)]
    ∧ (launchProcess ⟨[("a", 50)], [("a", 1)], 0, 0⟩ ⟨"", some 9, 2⟩ 700).1.sourceLastScheduleTimes
        = [("a", 50)].map (fun p => (p.1, 700))
    ∧ ∃ r, (launchProcess ⟨[("a", 50)], [("a", 1)], 0, 0⟩ ⟨"", some 9, 2⟩ 700).2 = some r :=
  launch_sweep_classification ⟨[("a", 50)], [("a", 1)], 0, 0⟩ ⟨"", some 9, 2⟩ 700
    (Or.inl rfl)

/-- C10: every `trigger` call evaluates the probe exactly once, as its very
first action — in particular before the `stopped` flag is read — and posts
nothing when the scheduler is stopped or the probe returned 0 (in the
latter case `stopped` is not even read). -/
theorem trigger_probe_once (getterName : String) (g queueLength : Nat)
    (stopped chanFree : Bool) :
    (trigger getterName g queueLength stopped chanFree).count TriggerAct.probeCall = 1
    ∧ (trigger getterName g queueLength stopped chanFree).head?
        = some TriggerAct.probeCall
    ∧ (stopped = true → ∀ e : InputEvent,
        TriggerAct.post e ∉ trigger getterName g queueLength stopped chanFree)
    ∧ (queueLength = 0 →
        trigger getterName g queueLength stopped chanFree = [TriggerAct.probeCall]) := by
  unfold trigger
  have hb1 : (TriggerAct.stoppedCheck == TriggerAct.probeCall) = false := rfl
  have hb2 : (TriggerAct.post ⟨getterName, some g, queueLength⟩
      == TriggerAct.probeCall) = false := rfl
  have hb3 : (TriggerAct.probeCall == TriggerAct.probeCall) = true := rfl
  split_ifs with h1 h2 h3 <;>
    simp_all [List.count_cons, List.count_nil]

/-- C10 witness: a trigger on a stopped scheduler whose probe reports 4
performs exactly one probe call and posts no event. -/
theorem trigger_probe_once_witness :
    ∀ e : InputEvent, TriggerAct.post e ∉ trigger "a" 1 4 true true :=
  (trigger_probe_once "a" 1 4 true true).2.2.1 rfl

end Engine

